import Mathlib

/-!
Verification development for the face-recognition-trainer repository.

The pipeline walks a directory tree, groups files by folder, batches each
group under a byte-size budget (`process_files` in shared-api/src/lib.rs),
forwards batches to a remote service (`send_to_train` / `recognize` in
compreface-api/src/compreface_client.rs), accumulates results
(`FaceProcessingResult::add`), and triages failed files
(`write_all_failure_faces` in cli/src/main.rs).

The definitions below are a shallow embedding of those functions: paths are
modelled as component lists with an absolute flag (PathBuf semantics),
machine integers as Nat, f64 similarity scores as rationals, fallible code
as Except/Option, and the effect of filesystem writes as explicit action
lists.  Rust panics (unwrap on None/Err) are modelled as an Option layer or
a dedicated panic error, distinct from orderly anyhow errors.
-/

namespace FaceTrainer

attribute [local semireducible] Rat.mul Rat.inv

/-- Decidable equality for Except values, used to evaluate the models on
concrete inputs. -/
instance {ε α : Type} [DecidableEq ε] [DecidableEq α] : DecidableEq (Except ε α) := fun a b =>
  match a, b with
  | Except.error x, Except.error y =>
      match decEq x y with
      | isTrue h => isTrue (h ▸ rfl)
      | isFalse h => isFalse fun hh => h (Except.error.inj hh)
  | Except.ok x, Except.ok y =>
      match decEq x y with
      | isTrue h => isTrue (h ▸ rfl)
      | isFalse h => isFalse fun hh => h (Except.ok.inj hh)
  | Except.error _, Except.ok _ => isFalse fun hh => Except.noConfusion hh
  | Except.ok _, Except.error _ => isFalse fun hh => Except.noConfusion hh

/-- Model of Rust PathBuf: a list of components plus an absolute flag. -/
structure FsPath where
  absolute : Bool
  components : List String
deriving DecidableEq

/-- PathBuf::push / Path::join with a general path: an absolute right operand
replaces the whole path, a relative one appends its components. -/
def FsPath.push (p q : FsPath) : FsPath :=
  if q.absolute then q else FsPath.mk p.absolute (p.components ++ q.components)

/-- Path::join with a single plain (relative, one-component) name, the common
case in the source (join of a file name or a subject name). -/
def FsPath.joinName (p : FsPath) (s : String) : FsPath :=
  FsPath.mk p.absolute (p.components ++ [s])

/-- PathBuf::new(): the empty relative path. -/
def FsPath.empty : FsPath :=
  FsPath.mk false []

/-- Path::parent: drop the last component; None when there is none. -/
def FsPath.parent (p : FsPath) : Option FsPath :=
  if p.components.isEmpty then none
  else some (FsPath.mk p.absolute p.components.dropLast)

/-- Path::file_name: the last component, when present. -/
def FsPath.fileName (p : FsPath) : Option String :=
  p.components.getLast?

/-- Split a character list at every dot (the pieces of a file name). -/
def splitDots : List Char → List (List Char)
  | [] => [[]]
  | x :: xs =>
      let r := splitDots xs
      if x = '.' then [] :: r
      else
        match r with
        | [] => [[x]]
        | h :: t => (x :: h) :: t

/-- Rust Path::file_stem on a file name: the whole name when it has no dot or
is a lone leading-dot name; otherwise the part before the final dot. -/
def fileStem (s : String) : String :=
  let parts := splitDots s.data
  if parts.length ≤ 1 then s
  else if parts.headD [] = [] ∧ parts.length = 2 then s
  else String.mk (List.intercalate (String.toList ".") parts.dropLast)

/-- Rust Path::extension on a file name: the part after the final dot, None
when there is no dot or only the leading dot of a hidden file. -/
def extensionOf (s : String) : Option String :=
  let parts := splitDots s.data
  if parts.length ≤ 1 then none
  else if parts.headD [] = [] ∧ parts.length = 2 then none
  else some (String.mk (parts.getLastD []))

/-- Path::extension of a path: extension of its last component. -/
def FsPath.extension (p : FsPath) : Option String :=
  p.fileName.bind extensionOf

/-- Display rendering of a path, used only for message/context strings. -/
def pathToString (p : FsPath) : String :=
  (if p.absolute then "/" else "") ++ String.intercalate "/" p.components

/-- shared-api/src/utils.rs is_image: the extension (empty when absent) must
be exactly jpg, jpeg or png, case-sensitive. -/
def is_image (p : FsPath) : Bool :=
  let extension := (FsPath.extension p).getD ""
  extension = "jpg" ∨ extension = "jpeg" ∨ extension = "png"

/-- Subject returned by the recognition service (similarity is f64 in the
source; it is modelled as a rational). -/
structure Subject where
  name : String
  similarity : ℚ
deriving DecidableEq

/-- FaceWithMetadata: a failed file plus the candidate subjects returned. -/
structure FaceWithMetadata where
  path : FsPath
  subjects : List Subject
deriving DecidableEq

/-- FailureFace: tagged by run mode. -/
inductive FailureFace where
  | Train : FsPath → FailureFace
  | Recognize : FaceWithMetadata → FailureFace
deriving DecidableEq

/-- FaceProcessingResult from shared-api/src/lib.rs. -/
structure FaceProcessingResult where
  total_count : Nat
  success_count : Nat
  failure_count : Nat
  failure_faces : List FailureFace
  missed_count : Nat
  missed_faces : List FsPath
  context : String
deriving DecidableEq

/-- FaceProcessingResult::with_context: all counters zero, empty lists. -/
def with_context (context : String) : FaceProcessingResult :=
  { total_count := 0
    success_count := 0
    failure_count := 0
    failure_faces := []
    missed_count := 0
    missed_faces := []
    context := context }

/-- FaceProcessingResult::add: sum the counters, extend the lists (the source
mutates self; the model returns the updated value). -/
def FaceProcessingResult.add (self other : FaceProcessingResult) : FaceProcessingResult :=
  { self with
    total_count := self.total_count + other.total_count
    success_count := self.success_count + other.success_count
    failure_count := self.failure_count + other.failure_count
    failure_faces := self.failure_faces ++ other.failure_faces
    missed_count := self.missed_count + other.missed_count
    missed_faces := self.missed_faces ++ other.missed_faces }

/-- ProgressReporter events (shared-api/src/lib.rs), instantiated at
FaceProcessingResult as in the binary. -/
inductive ProgressReporter where
  | increase : Nat → ProgressReporter
  | increaseLength : Nat → ProgressReporter
  | message : String → ProgressReporter
  | partialStructedMessage : FaceProcessingResult → ProgressReporter
  | accumulatedStructedMessage : FaceProcessingResult → ProgressReporter
  | finishWithMessage : String → ProgressReporter
deriving DecidableEq

/-- Sum of all Increase(n) payloads in an event list. -/
def countIncrease (evs : List ProgressReporter) : Nat :=
  (evs.map fun e =>
    match e with
    | ProgressReporter.increase n => n
    | _ => 0).sum

/-- Sum of all IncreaseLength(n) payloads in an event list. -/
def sumIncreaseLength (evs : List ProgressReporter) : Nat :=
  (evs.map fun e =>
    match e with
    | ProgressReporter.increaseLength n => n
    | _ => 0).sum

/-- One filesystem entry of a group, as delivered by the recursive stream:
an in-band I/O error, a directory marker, or a file (with its byte size, the
value fs::metadata returns for it). -/
inductive DirEntry where
  | err : String → DirEntry
  | dir : FsPath → DirEntry
  | file : FsPath → Nat → DirEntry
deriving DecidableEq

/-- An image file reaching the batching loop: its path and byte size. -/
structure ImgFile where
  path : FsPath
  size : Nat
deriving DecidableEq

/-- Sum of the byte sizes of a batch. -/
def sizeSum (b : List ImgFile) : Nat :=
  (b.map ImgFile.size).sum

/-- State of the batching loop in process_files: batches already emitted (the
api_action calls so far, in order), the current files_content buffer, and the
running total_size. -/
structure BatchState where
  batches : List (List ImgFile)
  buffer : List ImgFile
  total : Nat
deriving DecidableEq

/-- One image file through the batching loop (shared-api/src/lib.rs lines
379-388): when total_size + file_len exceeds max_request_size the current
buffer is flushed first (even when it is empty, which happens when the first
image file of a group is oversized), then the file starts or extends the
accumulator. -/
def batchStep (maxReq : Nat) (s : BatchState) (f : ImgFile) : BatchState :=
  if s.total + f.size > maxReq then
    BatchState.mk (s.batches ++ [s.buffer]) [f] f.size
  else
    BatchState.mk s.batches (s.buffer ++ [f]) (s.total + f.size)

/-- End of group (lines 390-392): flush the buffer when it is non-empty. -/
def finishBatches (s : BatchState) : List (List ImgFile) :=
  if s.buffer.isEmpty then s.batches else s.batches ++ [s.buffer]

/-- The batches the loop emits for a given image-file sequence. -/
def batchFiles (maxReq : Nat) (files : List ImgFile) : List (List ImgFile) :=
  finishBatches (files.foldl (batchStep maxReq) (BatchState.mk [] [] 0))

/-- The filter at lines 349-352: path.is_ok() && path.is_file(); every file
entry counts, image or not. -/
def entryIsFile : DirEntry → Bool
  | DirEntry.file _ _ => true
  | _ => false

/-- files_count, the amount sent as IncreaseLength for a group. -/
def filesCount (g : List DirEntry) : Nat :=
  (g.filter entryIsFile).length

/-- The image files of a group, in order: the entries that survive both the
is_dir skip and the is_image filter and thus reach the batching loop. -/
def imageFilesOf (g : List DirEntry) : List ImgFile :=
  g.filterMap fun e =>
    match e with
    | DirEntry.file p sz => if is_image p then some (ImgFile.mk p sz) else none
    | _ => none

/-- State of the per-group loop: events emitted so far and batching state. -/
structure GroupLoopState where
  events : List ProgressReporter
  batch : BatchState
deriving DecidableEq

/-- One entry through the loop body of process_files (lines 364-388): an Err
entry is rethrown by the question-mark operator (orderly anyhow error), a
directory emits a display message (the source unwraps file_stem there; the
panic on a stem-less directory path is not modelled since the message text is
display-only), a non-image file is skipped, an image file goes through the
batching step. -/
def groupStep (maxReq : Nat) (st : GroupLoopState) (e : DirEntry) :
    Except String GroupLoopState :=
  match e with
  | DirEntry.err m => Except.error m
  | DirEntry.dir p =>
      Except.ok
        { st with
          events := st.events ++ [ProgressReporter.message ((p.fileName.map fileStem).getD "")] }
  | DirEntry.file p sz =>
      if is_image p then
        Except.ok { st with batch := batchStep maxReq st.batch (ImgFile.mk p sz) }
      else
        Except.ok st

/-- Processing of one group in process_files (lines 348-393): send
IncreaseLength(files_count) and a directory message, run every entry through
the loop, flush the final non-empty buffer.  Returns the emitted events and
the batches handed to api_action, in order. -/
def groupInit (name : String) (g : List DirEntry) : GroupLoopState :=
  GroupLoopState.mk
    [ProgressReporter.increaseLength (filesCount g),
      ProgressReporter.message ("processing directory: " ++ name)]
    (BatchState.mk [] [] 0)

def processGroup (maxReq : Nat) (name : String) (g : List DirEntry) :
    Except String (List ProgressReporter × List (List ImgFile)) := do
  let st ← g.foldlM (groupStep maxReq) (groupInit name g)
  Except.ok (st.events, finishBatches st.batch)

/-- The group-boundary closure at shared-api/src/lib.rs line 340:
|path| path.as_ref().unwrap().is_dir().  The unwrap panics on an Err entry;
a panic is modelled as none. -/
def boundary_predicate (e : DirEntry) : Option Bool :=
  match e with
  | DirEntry.err _ => none
  | DirEntry.dir _ => some true
  | DirEntry.file _ _ => some false

/-- Modelled from the spec: BufferUntilCondition lives in the external
stream_utils crate, which is not under src/.  Spec 4.2: accumulate entries
into a pending buffer; when the predicate matches the current entry and the
buffer is non-empty, emit the buffer and start a new buffer with the matching
entry; at end of stream flush any remaining buffer.  A none from the
predicate models a panic inside the predicate closure and aborts the whole
grouping with none (no orderly result). -/
def bufferGo (pred : DirEntry → Option Bool) (buf : List DirEntry) :
    List DirEntry → Option (List (List DirEntry))
  | [] => some (if buf.isEmpty then [] else [buf])
  | x :: xs =>
      match pred x with
      | none => none
      | some true =>
          if buf.isEmpty then bufferGo pred [x] xs
          else (bufferGo pred [x] xs).map fun gs => buf :: gs
      | some false => bufferGo pred (buf ++ [x]) xs

/-- Modelled from the spec: the grouping of the whole entry stream. -/
def bufferUntilCondition (pred : DirEntry → Option Bool)
    (entries : List DirEntry) : Option (List (List DirEntry)) :=
  bufferGo pred [] entries

/-- shared-api/src/utils.rs get_directory_name: the subject name derived from
the first entry of a group; an Err first entry or an empty group is an
orderly anyhow error (bail), matching the tests of utils.rs. -/
def get_directory_name (group : List DirEntry) : Except String String :=
  match group with
  | [] => Except.error "empty group"
  | DirEntry.err e :: _ => Except.error ("error: " ++ e)
  | DirEntry.dir p :: _ =>
      match p.fileName with
      | some nm => Except.ok (fileStem nm)
      | none => Except.error ("folder name not found on path: " ++ pathToString p)
  | DirEntry.file p _ :: _ =>
      match p.parent with
      | none => Except.error ("parent folder not found on path: " ++ pathToString p)
      | some par =>
          match par.fileName with
          | some nm => Except.ok (fileStem nm)
          | none => Except.error ("folder name not found on path: " ++ pathToString p)

/-- Outcome of the HTTP send for one file in send_to_train: a transport
error (reqwest Err) or a response with a status code. -/
inductive SendOutcome where
  | transportErr : SendOutcome
  | status : Nat → SendOutcome
deriving DecidableEq

/-- One item of the recognition API response; the detection box is
deserialized but unused in the source and is omitted. -/
structure ResultItem where
  subjects : List Subject
deriving DecidableEq

/-- Outcome of the HTTP exchange for one file in recognize: a transport
error, a JSON parse error, or a parsed response body. -/
inductive RecognizeOutcome where
  | transportErr : RecognizeOutcome
  | parseErr : RecognizeOutcome
  | response : List ResultItem → RecognizeOutcome
deriving DecidableEq

/-- RecognitionApiResponse::get_subjects: all subjects of all result items. -/
def getSubjects (items : List ResultItem) : List Subject :=
  items.flatMap ResultItem.subjects

namespace CompreFaceClient

/-- One file through the loop of send_to_train (compreface_client.rs lines
55-120): a transport error records a missed face and continues WITHOUT a
progress tick (the Increase(1) send sits after the error check); a response
then ticks Increase(1) and counts status 200/201 as success, anything else
as a Train-tagged failure.  File-read and response-body errors abort the
whole call through the question mark and are outside this model. -/
def sendStep (st : FaceProcessingResult × List ProgressReporter)
    (fo : FsPath × SendOutcome) : FaceProcessingResult × List ProgressReporter :=
  match fo.2 with
  | SendOutcome.transportErr =>
      ({ st.1 with
          missed_count := st.1.missed_count + 1
          missed_faces := st.1.missed_faces ++ [fo.1] },
        st.2)
  | SendOutcome.status code =>
      let evs := st.2 ++ [ProgressReporter.increase 1]
      if code = 200 ∨ code = 201 then
        ({ st.1 with success_count := st.1.success_count + 1 }, evs)
      else
        ({ st.1 with
            failure_count := st.1.failure_count + 1
            failure_faces := st.1.failure_faces ++ [FailureFace.Train fo.1] },
          evs)

/-- CompreFaceClient::send_to_train: the context unwraps the first file and
its parent (a panic, hence none, on an empty file list or a parent-less
path); total_count is set to the file count up front; then every file goes
through sendStep.  Returns the final result and the progress events sent. -/
def send_to_train (name : String) (files : List (FsPath × SendOutcome)) :
    Option (FaceProcessingResult × List ProgressReporter) :=
  match files with
  | [] => none
  | f :: _ =>
      match f.1.parent with
      | none => none
      | some par =>
          let init := { with_context (pathToString par) with total_count := files.length }
          some (files.foldl sendStep (init, []))

/-- One file through the loop of recognize (compreface_client.rs lines
151-227): total_count is incremented per file; a transport error records a
missed face and ticks Increase(1) inside the error arm; a parse error
records a missed face; a parsed response counts success when any result item
carries a subject named like the queried name, otherwise a Recognize-tagged
failure carrying all returned subjects; the non-transport arms tick
Increase(1) at the end of the loop body.  So every file ticks exactly once. -/
def recognizeStep (name : String) (st : FaceProcessingResult × List ProgressReporter)
    (fo : FsPath × RecognizeOutcome) : FaceProcessingResult × List ProgressReporter :=
  let r := { st.1 with total_count := st.1.total_count + 1 }
  match fo.2 with
  | RecognizeOutcome.transportErr =>
      ({ r with
          missed_count := r.missed_count + 1
          missed_faces := r.missed_faces ++ [fo.1] },
        st.2 ++ [ProgressReporter.increase 1])
  | RecognizeOutcome.parseErr =>
      ({ r with
          missed_count := r.missed_count + 1
          missed_faces := r.missed_faces ++ [fo.1] },
        st.2 ++ [ProgressReporter.increase 1])
  | RecognizeOutcome.response items =>
      if items.any fun it => it.subjects.any fun s => s.name = name then
        ({ r with success_count := r.success_count + 1 },
          st.2 ++ [ProgressReporter.increase 1])
      else
        ({ r with
            failure_count := r.failure_count + 1
            failure_faces :=
              r.failure_faces ++
                [FailureFace.Recognize (FaceWithMetadata.mk fo.1 (getSubjects items))] },
          st.2 ++ [ProgressReporter.increase 1])

/-- CompreFaceClient::recognize: same first-file/parent unwrap for the
context (none models the panic), total_count starts at zero and is counted
inside the loop. -/
def recognize (name : String) (files : List (FsPath × RecognizeOutcome)) :
    Option (FaceProcessingResult × List ProgressReporter) :=
  match files with
  | [] => none
  | f :: _ =>
      match f.1.parent with
      | none => none
      | some par =>
          some (files.foldl (recognizeStep name) (with_context (pathToString par), []))

end CompreFaceClient

/-- ErrorBehavior from shared-api/src/lib.rs. -/
inductive ErrorBehavior where
  | Copy : ErrorBehavior
  | Move : ErrorBehavior
  | Ignore : ErrorBehavior
deriving DecidableEq

/-- PostRecognizeStrategy from shared-api/src/lib.rs. -/
inductive PostRecognizeStrategy where
  | KeepAsIs : PostRecognizeStrategy
  | MaxSimilarity : PostRecognizeStrategy
  | AboveThreshold : PostRecognizeStrategy
deriving DecidableEq

/-- ErrorConfiguration from shared-api/src/lib.rs (output_dir is an optional
string turned into a PathBuf at use; it is modelled as an optional path). -/
structure ErrorConfiguration where
  output_dir : Option FsPath
  error_behavior : ErrorBehavior
  post_recognize_strategy : PostRecognizeStrategy
  above_threshold : Option ℚ
deriving DecidableEq

/-- A failure inside write_all_failure_faces: a panic (unwrap on None) or an
orderly bail with its message. -/
inductive TriageFailure where
  | panic : TriageFailure
  | bail : String → TriageFailure
deriving DecidableEq

/-- Unwrap an Option, turning None into the panic failure. -/
def unwrapO {α : Type} : Option α → Except TriageFailure α
  | some a => Except.ok a
  | none => Except.error TriageFailure.panic

/-- A filesystem write performed by the triage step. -/
inductive FsAction where
  | createDirAll : FsPath → FsAction
  | createFile : FsPath → FsAction
  | copy : FsPath → FsPath → FsAction
  | rename : FsPath → FsPath → FsAction
  | removeFile : FsPath → FsAction
deriving DecidableEq

/-- The quantization (item.similarity * 1000.0) as u32 from cli/src/main.rs
line 195: multiply by 1000 and truncate; the as-cast saturates below at 0 and
above at the u32 maximum. -/
def simKey (q : ℚ) : Nat :=
  min (Int.toNat (Int.floor (q * 1000))) (2 ^ 32 - 1)

/-- Rust Iterator::max_by_key: None on an empty iterator, otherwise the fold
that keeps the element with the greatest key, the LAST such element when
several compare equal. -/
def max_by_key {α : Type} (key : α → Nat) : List α → Option α
  | [] => none
  | x :: xs => some (xs.foldl (fun a b => if key a ≤ key b then b else a) x)

/-- Rust FromIterator for PathBuf: start from the empty path and push every
produced path in turn (an absolute path replaces everything before it). -/
def collectPathBuf (ps : List FsPath) : FsPath :=
  ps.foldl FsPath.push FsPath.empty

/-- The sentinel created at cli/src/main.rs line 179:
File::create(person_folder.flatten(file_name).flatten(".original_name")) — note the
second join adds a path COMPONENT named .original_name under a directory
named after the file, it does not append a suffix to the file name. -/
def sentinelPath (person_folder : FsPath) (file_name : String) : FsPath :=
  (person_folder.joinName file_name).joinName ".original_name"

/-- The bail message of the MaxSimilarity arm (cli/src/main.rs lines
199-201). -/
def maxSimilarityBailMsg (source_path : FsPath) (n : Nat) : String :=
  "Failed to find the max similarity subject for the file: " ++
    pathToString source_path ++ ", # of subjects: " ++ toString n

/-- The target_files computation for a Recognize-tagged face (cli/src/main.rs
lines 189-210): KeepAsIs keeps the original file name; MaxSimilarity picks
max_by_key over the quantized similarity and bails when the candidate list is
empty; AboveThreshold unwraps the threshold (panic when absent), then
collects person_folder.flatten(name) of every candidate with similarity
strictly above the threshold INTO A SINGLE PathBuf (vec![iter.collect()]),
so the list always has exactly one element. -/
def recognizeTargets (cfg : ErrorConfiguration) (person_folder : FsPath)
    (file_name : String) (m : FaceWithMetadata) : Except TriageFailure (List FsPath) :=
  match cfg.post_recognize_strategy with
  | PostRecognizeStrategy.KeepAsIs => Except.ok [person_folder.joinName file_name]
  | PostRecognizeStrategy.MaxSimilarity =>
      match max_by_key (fun s => simKey s.similarity) m.subjects with
      | some subject => Except.ok [person_folder.joinName subject.name]
      | none => Except.error (TriageFailure.bail (maxSimilarityBailMsg m.path m.subjects.length))
  | PostRecognizeStrategy.AboveThreshold =>
      match cfg.above_threshold with
      | none => Except.error TriageFailure.panic
      | some thr =>
          Except.ok
            [collectPathBuf
              ((m.subjects.filter fun s => thr < s.similarity).map fun s =>
                person_folder.joinName s.name)]

/-- The placement at cli/src/main.rs lines 214-226: a single target under
Move is a direct rename; otherwise copy into every target and, under Move,
remove the source after all copies. -/
def placeActions (behavior : ErrorBehavior) (src : FsPath) (targets : List FsPath) :
    List FsAction :=
  match targets, behavior with
  | [t], ErrorBehavior.Move => [FsAction.rename src t]
  | ts, b =>
      ts.map (fun t => FsAction.copy src t) ++
        (if b = ErrorBehavior.Move then [FsAction.removeFile src] else [])

/-- One failed face through the loop body of write_all_failure_faces
(cli/src/main.rs lines 168-227): derive the source path, unwrap parent and
its file stem for the per-person folder (panic on None), create the folder
and the sentinel file, compute the strategy targets, place the file. -/
def processFailureFace (cfg : ErrorConfiguration) (sub_folder : FsPath)
    (face : FailureFace) : Except TriageFailure (List FsAction) := do
  let source_path :=
    match face with
    | FailureFace.Train p => p
    | FailureFace.Recognize m => m.path
  let par ← unwrapO source_path.parent
  let parStemName ← unwrapO par.fileName
  let person_folder := sub_folder.joinName (fileStem parStemName)
  let file_name ← unwrapO source_path.fileName
  let target_files ←
    match face with
    | FailureFace.Train _ => Except.ok [person_folder.joinName file_name]
    | FailureFace.Recognize m => recognizeTargets cfg person_folder file_name m
  Except.ok
    ([FsAction.createDirAll person_folder,
      FsAction.createFile (sentinelPath person_folder file_name)] ++
      placeActions cfg.error_behavior source_path target_files)

/-- write_all_failure_faces (cli/src/main.rs lines 162-229): unwrap the
output directory (panic on None), create the failure_faces sub folder, then
run every face through the loop body; the question mark on a bail aborts the
remaining faces. -/
def write_all_failure_faces (cfg : ErrorConfiguration) (faces : List FailureFace) :
    Except TriageFailure (List FsAction) := do
  let outDir ← unwrapO cfg.output_dir
  let sub_folder := outDir.joinName "failure_faces"
  faces.foldlM
    (fun acc face => do
      let acts ← processFailureFace cfg sub_folder face
      Except.ok (acc ++ acts))
    [FsAction.createDirAll sub_folder]

/-- The count bookkeeping invariant of FaceProcessingResult. -/
def countsConsistent (r : FaceProcessingResult) : Prop :=
  r.total_count = r.success_count + r.failure_count + r.missed_count

/-- The list bookkeeping invariant of FaceProcessingResult. -/
def facesConsistent (r : FaceProcessingResult) : Prop :=
  r.failure_count = r.failure_faces.length ∧ r.missed_count = r.missed_faces.length

/-- The results reachable through the public operations: with_context,
a successful send_to_train or recognize call, and add merges of those. -/
inductive Reachable : FaceProcessingResult → Prop where
  | withCtx (c : String) : Reachable (with_context c)
  | train (name : String) (files : List (FsPath × SendOutcome))
      (r : FaceProcessingResult) (ev : List ProgressReporter)
      (h : CompreFaceClient.send_to_train name files = some (r, ev)) : Reachable r
  | recog (name : String) (files : List (FsPath × RecognizeOutcome))
      (r : FaceProcessingResult) (ev : List ProgressReporter)
      (h : CompreFaceClient.recognize name files = some (r, ev)) : Reachable r
  | merge (a b : FaceProcessingResult) (ha : Reachable a) (hb : Reachable b) :
      Reachable (a.add b)

/-! Concrete inputs used by witnesses and counterexamples. -/

def pAlice : FsPath := FsPath.mk true ["data", "alice"]

def pA : FsPath := FsPath.mk true ["data", "alice", "a.jpg"]

def pB : FsPath := FsPath.mk true ["data", "alice", "b.jpg"]

def pC : FsPath := FsPath.mk true ["data", "alice", "c.jpg"]

def pTxt : FsPath := FsPath.mk true ["data", "alice", "notes.txt"]

def fA : ImgFile := ImgFile.mk pA 3

def fB : ImgFile := ImgFile.mk pB 20

def fC : ImgFile := ImgFile.mk pC 4

/-- An example group: a directory marker, three jpg files of sizes 3, 20 and
4 bytes, and one non-image file. -/
def c1Group : List DirEntry :=
  [DirEntry.dir pAlice, DirEntry.file pA 3, DirEntry.file pB 20, DirEntry.file pC 4,
    DirEntry.file pTxt 7]

/-- The events processGroup emits for c1Group (the length counts all four
files, the text entry included). -/
def c1Events : List ProgressReporter :=
  [ProgressReporter.increaseLength 4,
    ProgressReporter.message "processing directory: alice",
    ProgressReporter.message "alice"]

/-- The batches processGroup emits for c1Group under budget 10. -/
def c1Batches : List (List ImgFile) := [[fA], [fB], [fC]]

def outRoot : FsPath := FsPath.mk true ["out"]

/-- The person folder the triage builds for files whose parent is alice. -/
def personAlice : FsPath := FsPath.mk true ["out", "failure_faces", "alice"]

def cfgMaxMove : ErrorConfiguration :=
  ErrorConfiguration.mk (some outRoot) ErrorBehavior.Move
    PostRecognizeStrategy.MaxSimilarity (some (mkRat 95 100))

def cfgATCopy : ErrorConfiguration :=
  ErrorConfiguration.mk (some outRoot) ErrorBehavior.Copy
    PostRecognizeStrategy.AboveThreshold (some (mkRat 9 10))

def cfgAT95 : ErrorConfiguration :=
  ErrorConfiguration.mk (some outRoot) ErrorBehavior.Copy
    PostRecognizeStrategy.AboveThreshold (some (mkRat 95 100))

def subjA : Subject := Subject.mk "A" (mkRat 91 100)

def subjB : Subject := Subject.mk "B" (mkRat 93 100)

def subjC : Subject := Subject.mk "C" (mkRat 93 100)

def subjB6 : Subject := Subject.mk "B" (mkRat 6 10)

/-- The tie example of the spec: A 0.91, B 0.93, C 0.93. -/
def faceABC : FaceWithMetadata := FaceWithMetadata.mk pA [subjA, subjB, subjC]

/-- The threshold example of the spec: A 0.91, B 0.6, C 0.93. -/
def faceAT : FaceWithMetadata := FaceWithMetadata.mk pA [subjA, subjB6, subjC]

/-- The threshold example minus C: nothing exceeds 0.95. -/
def faceATnoC : FaceWithMetadata := FaceWithMetadata.mk pA [subjA, subjB6]

/-- A Recognize face with an empty candidate list. -/
def badFace : FailureFace := FailureFace.Recognize (FaceWithMetadata.mk pA [])

/-- A Recognize face with one candidate. -/
def goodFace : FailureFace := FailureFace.Recognize (FaceWithMetadata.mk pB [subjB])

/-- Files of a send_to_train example batch: an accepted file, a transport
failure and a service rejection. -/
def sendEx : List (FsPath × SendOutcome) :=
  [(pA, SendOutcome.status 200), (pB, SendOutcome.transportErr), (pC, SendOutcome.status 500)]

/-- The result send_to_train produces for sendEx. -/
def sendExResult : FaceProcessingResult :=
  { total_count := 3
    success_count := 1
    failure_count := 1
    failure_faces := [FailureFace.Train pC]
    missed_count := 1
    missed_faces := [pB]
    context := "/data/alice" }

/-- The progress events send_to_train emits for sendEx: no tick for the
transport failure. -/
def sendExEvents : List ProgressReporter :=
  [ProgressReporter.increase 1, ProgressReporter.increase 1]

/-- Files of a recognize example batch, queried under the name B. -/
def recogEx : List (FsPath × RecognizeOutcome) :=
  [(pA, RecognizeOutcome.response [ResultItem.mk [subjB]]),
    (pB, RecognizeOutcome.transportErr),
    (pC, RecognizeOutcome.response [])]

/-- The result recognize produces for recogEx under the name B. -/
def recogExResult : FaceProcessingResult :=
  { total_count := 3
    success_count := 1
    failure_count := 1
    failure_faces := [FailureFace.Recognize (FaceWithMetadata.mk pC [])]
    missed_count := 1
    missed_faces := [pB]
    context := "/data/alice" }

/-- The progress events recognize emits for recogEx: one tick per file. -/
def recogExEvents : List ProgressReporter :=
  [ProgressReporter.increase 1, ProgressReporter.increase 1, ProgressReporter.increase 1]

/-- A group with one jpg file and one txt file. -/
def c5Group : List DirEntry :=
  [DirEntry.dir pAlice, DirEntry.file pA 3, DirEntry.file pTxt 5]

/-- The events processGroup emits for c5Group: the length counts both files
although only the jpg is processed. -/
def c5Events : List ProgressReporter :=
  [ProgressReporter.increaseLength 2,
    ProgressReporter.message "processing directory: alice",
    ProgressReporter.message "alice"]

/-- The batches processGroup emits for c5Group under budget 10. -/
def c5Batches : List (List ImgFile) := [[fA]]

/-- True when the file did not fail at the transport level. -/
def notTransport (fo : FsPath × SendOutcome) : Bool :=
  match fo.2 with
  | SendOutcome.transportErr => false
  | SendOutcome.status _ => true

/-- A legal batch: within budget, or a lone oversized file. -/
def GoodBatch (maxReq : Nat) (b : List ImgFile) : Prop :=
  sizeSum b ≤ maxReq ∨ ∃ f, b = [f] ∧ maxReq < f.size

lemma sizeSum_nil : sizeSum [] = 0 := rfl

lemma except_bind_ok {ε α β : Type} (a : α) (f : α → Except ε β) :
    (Except.ok a >>= f) = f a := rfl

lemma except_bind_error {ε α β : Type} (m : ε) (f : α → Except ε β) :
    ((Except.error m : Except ε α) >>= f) = Except.error m := rfl

lemma foldlM_except_cons {ε σ α : Type} (f : σ → α → Except ε σ) (s : σ) (x : α)
    (l : List α) : List.foldlM f s (x :: l) = (f s x >>= fun s2 => List.foldlM f s2 l) := rfl

lemma foldlM_except_nil {ε σ α : Type} (f : σ → α → Except ε σ) (s : σ) :
    List.foldlM f s [] = Except.ok s := rfl

lemma sizeSum_append (a b : List ImgFile) : sizeSum (a ++ b) = sizeSum a + sizeSum b := by
  simp [sizeSum]

lemma sizeSum_singleton (f : ImgFile) : sizeSum [f] = f.size := by
  simp [sizeSum]

lemma size_le_sizeSum {f : ImgFile} {b : List ImgFile} (hf : f ∈ b) : f.size ≤ sizeSum b :=
  List.single_le_sum (fun _ _ => Nat.zero_le _) _ (List.mem_map_of_mem _ hf)

/-- The inductive invariant of the batching loop: the running total matches
the buffer, buffer and all emitted batches are legal, and emitted batches
plus the buffer reconstruct everything processed so far. -/
lemma batch_fold_inv (maxReq : Nat) :
    ∀ (files : List ImgFile) (s : BatchState) (pre : List ImgFile),
      s.total = sizeSum s.buffer →
      GoodBatch maxReq s.buffer →
      s.batches.flatten ++ s.buffer = pre →
      (∀ b ∈ s.batches, GoodBatch maxReq b) →
      (files.foldl (batchStep maxReq) s).total =
          sizeSum (files.foldl (batchStep maxReq) s).buffer ∧
        GoodBatch maxReq (files.foldl (batchStep maxReq) s).buffer ∧
        (files.foldl (batchStep maxReq) s).batches.flatten ++
            (files.foldl (batchStep maxReq) s).buffer = pre ++ files ∧
        ∀ b ∈ (files.foldl (batchStep maxReq) s).batches, GoodBatch maxReq b := by
  intro files
  induction files with
  | nil =>
      intro s pre h1 h2 h3 h4
      simpa using ⟨h1, h2, h3, h4⟩
  | cons f fs ih =>
      intro s pre h1 h2 h3 h4
      rw [List.foldl_cons]
      by_cases hov : s.total + f.size > maxReq
      · have hstep : batchStep maxReq s f = BatchState.mk (s.batches ++ [s.buffer]) [f] f.size := by
          simp [batchStep, hov]
        rw [hstep]
        have hres := ih (BatchState.mk (s.batches ++ [s.buffer]) [f] f.size) (pre ++ [f])
          (by simp [sizeSum_singleton])
          (by
            rcases le_or_lt f.size maxReq with hle | hgt
            · exact Or.inl (by simpa [sizeSum_singleton] using hle)
            · exact Or.inr ⟨f, rfl, hgt⟩)
          (by simp [List.flatten_append, ← h3])
          (by
            intro b hb
            rcases List.mem_append.mp hb with hb | hb
            · exact h4 b hb
            · simpa using (List.mem_singleton.mp hb ▸ h2))
        simpa using hres
      · have hstep : batchStep maxReq s f =
            BatchState.mk s.batches (s.buffer ++ [f]) (s.total + f.size) := by
          simp [batchStep, hov]
        rw [hstep]
        have hle : s.total + f.size ≤ maxReq := Nat.le_of_not_lt hov
        have hres := ih (BatchState.mk s.batches (s.buffer ++ [f]) (s.total + f.size)) (pre ++ [f])
          (by simp [sizeSum_append, sizeSum_singleton, h1])
          (Or.inl (by simpa [sizeSum_append, sizeSum_singleton, ← h1] using hle))
          (by simp [← h3])
          h4
        simpa using hres

/-- Every batch emitted by batchFiles is legal and their concatenation is the
input file list. -/
lemma batchFiles_spec (maxReq : Nat) (files : List ImgFile) :
    (batchFiles maxReq files).flatten = files ∧
      ∀ b ∈ batchFiles maxReq files, GoodBatch maxReq b := by
  have h := batch_fold_inv maxReq files (BatchState.mk [] [] 0) []
    (by simp [sizeSum_nil]) (Or.inl (by simp [sizeSum_nil])) (by simp) (by simp)
  obtain ⟨-, hbuf, hjoin, hbat⟩ := h
  set s := files.foldl (batchStep maxReq) (BatchState.mk [] [] 0) with hs
  constructor
  · unfold batchFiles finishBatches
    rw [← hs]
    by_cases hemp : s.buffer.isEmpty
    · have : s.buffer = [] := List.isEmpty_iff.mp hemp
      simp only [hemp, if_true]
      simpa [this] using hjoin
    · simp only [hemp, if_false]
      simpa [List.flatten_append] using hjoin
  · intro b hb
    unfold batchFiles finishBatches at hb
    rw [← hs] at hb
    by_cases hemp : s.buffer.isEmpty
    · rw [if_pos hemp] at hb
      exact hbat b hb
    · rw [if_neg hemp] at hb
      rcases List.mem_append.mp hb with hb | hb
      · exact hbat b hb
      · exact List.mem_singleton.mp hb ▸ hbuf

/-- Through the per-group loop the batching state advances exactly by the
image files, and no IncreaseLength event is added by the loop body. -/
lemma group_foldlM_ok (maxReq : Nat) :
    ∀ (g : List DirEntry) (st res : GroupLoopState),
      List.foldlM (groupStep maxReq) st g = Except.ok res →
      res.batch = (imageFilesOf g).foldl (batchStep maxReq) st.batch ∧
        sumIncreaseLength res.events = sumIncreaseLength st.events := by
  intro g
  induction g with
  | nil =>
      intro st res h
      cases h
      simp [imageFilesOf]
  | cons e g ih =>
      intro st res h
      cases e with
      | err m =>
          rw [foldlM_except_cons] at h
          simp only [groupStep] at h
          rw [except_bind_error] at h
          cases h
      | dir p =>
          rw [foldlM_except_cons] at h
          simp only [groupStep] at h
          rw [except_bind_ok] at h
          have hres := ih _ _ h
          refine ⟨by simpa [imageFilesOf] using hres.1, ?_⟩
          rw [hres.2]
          simp [sumIncreaseLength]
      | file p sz =>
          rw [foldlM_except_cons] at h
          simp only [groupStep] at h
          by_cases himg : is_image p
          · rw [if_pos himg, except_bind_ok] at h
            have hres := ih _ _ h
            constructor
            · rw [hres.1]
              simp [imageFilesOf, himg]
            · exact hres.2
          · rw [if_neg himg, except_bind_ok] at h
            have hres := ih _ _ h
            constructor
            · rw [hres.1]
              simp [imageFilesOf, himg]
            · exact hres.2

/-- Unfold a successful processGroup run into its loop result. -/
lemma processGroup_ok (maxReq : Nat) (name : String) (g : List DirEntry)
    (ev : List ProgressReporter) (bs : List (List ImgFile))
    (h : processGroup maxReq name g = Except.ok (ev, bs)) :
    ∃ res : GroupLoopState,
      List.foldlM (groupStep maxReq) (groupInit name g) g = Except.ok res ∧
        ev = res.events ∧ bs = finishBatches res.batch := by
  unfold processGroup at h
  cases hfold : List.foldlM (groupStep maxReq) (groupInit name g) g with
  | error e =>
      rw [hfold, except_bind_error] at h
      cases h
  | ok res =>
      rw [hfold, except_bind_ok] at h
      have h3 : (res.events, finishBatches res.batch) = (ev, bs) := Except.ok.inj h
      exact ⟨res, rfl, (congrArg Prod.fst h3).symm, (congrArg Prod.snd h3).symm⟩


/-- C1: for every group and every max_request_size, the batches the batching
loop of process_files hands to api_action, concatenated in order, equal the
group's filtered image-file list exactly; every batch's summed byte size is
at most max_request_size unless it is a single file whose own size exceeds
the budget; and every oversized image file forms its own batch (never
dropped). -/
theorem c1_batching_partition (maxReq : Nat) (name : String) (g : List DirEntry)
    (ev : List ProgressReporter) (bs : List (List ImgFile))
    (h : processGroup maxReq name g = Except.ok (ev, bs)) :
    bs.flatten = imageFilesOf g ∧
      (∀ b ∈ bs, sizeSum b ≤ maxReq ∨ ∃ f, b = [f] ∧ maxReq < f.size) ∧
      ∀ f ∈ imageFilesOf g, maxReq < f.size → [f] ∈ bs := by
  obtain ⟨res, hfold, hev, hbs⟩ := processGroup_ok maxReq name g ev bs h
  obtain ⟨hbatch, -⟩ := group_foldlM_ok maxReq g _ res hfold
  have hbs2 : bs = batchFiles maxReq (imageFilesOf g) := by
    rw [hbs, hbatch]; rfl
  subst hbs2
  obtain ⟨hflat, hgood⟩ := batchFiles_spec maxReq (imageFilesOf g)
  refine ⟨hflat, fun b hb => hgood b hb, ?_⟩
  intro f hf hof
  have hmem : f ∈ (batchFiles maxReq (imageFilesOf g)).flatten := by
    rw [hflat]; exact hf
  obtain ⟨b, hbmem, hfb⟩ := List.mem_flatten.mp hmem
  rcases hgood b hbmem with hle | ⟨g0, hbeq, hg0⟩
  · exact absurd (le_trans (size_le_sizeSum hfb) hle) (not_le.mpr hof)
  · have hfg : f = g0 := by
      rw [hbeq] at hfb
      simpa using hfb
    rw [← hfg] at hbeq
    rw [← hbeq]
    exact hbmem

/-- Witness for C1 at the concrete group c1Group with budget 10: the
concatenation property holds, the oversized-singleton disjunction holds for
the batch of the 20-byte file, and that file forms its own batch. -/
theorem c1_batching_partition_witness :
    c1Batches.flatten = imageFilesOf c1Group ∧
      (sizeSum [fB] ≤ 10 ∨ ∃ f, [fB] = [f] ∧ 10 < f.size) ∧
      [fB] ∈ c1Batches := by
  have h : processGroup 10 "alice" c1Group = Except.ok (c1Events, c1Batches) := by rfl
  obtain ⟨h1, h2, h3⟩ := c1_batching_partition 10 "alice" c1Group c1Events c1Batches h
  exact ⟨h1, h2 [fB] (by decide), h3 fB (by decide) (by decide)⟩

lemma add_countsConsistent {a b : FaceProcessingResult} (ha : countsConsistent a)
    (hb : countsConsistent b) : countsConsistent (a.add b) := by
  unfold countsConsistent at ha hb ⊢
  simp only [FaceProcessingResult.add]
  omega

lemma add_facesConsistent {a b : FaceProcessingResult} (ha : facesConsistent a)
    (hb : facesConsistent b) : facesConsistent (a.add b) := by
  obtain ⟨ha1, ha2⟩ := ha
  obtain ⟨hb1, hb2⟩ := hb
  constructor
  · simp [FaceProcessingResult.add, ha1, hb1]
  · simp [FaceProcessingResult.add, ha2, hb2]

/-- One send_to_train step: the total is untouched, the outcome sum grows by
one, list lengths track their counters, and a tick is emitted exactly when
the file did not fail at the transport level. -/
lemma sendStep_spec (st : FaceProcessingResult × List ProgressReporter)
    (fo : FsPath × SendOutcome) :
    (CompreFaceClient.sendStep st fo).1.total_count = st.1.total_count ∧
      (CompreFaceClient.sendStep st fo).1.success_count +
          (CompreFaceClient.sendStep st fo).1.failure_count +
          (CompreFaceClient.sendStep st fo).1.missed_count =
        st.1.success_count + st.1.failure_count + st.1.missed_count + 1 ∧
      ((CompreFaceClient.sendStep st fo).1.failure_count =
          (CompreFaceClient.sendStep st fo).1.failure_faces.length ↔
        st.1.failure_count = st.1.failure_faces.length) ∧
      ((CompreFaceClient.sendStep st fo).1.missed_count =
          (CompreFaceClient.sendStep st fo).1.missed_faces.length ↔
        st.1.missed_count = st.1.missed_faces.length) ∧
      countIncrease (CompreFaceClient.sendStep st fo).2 =
        countIncrease st.2 + (if notTransport fo then 1 else 0) := by
  rcases fo with ⟨p, o⟩
  cases o with
  | transportErr =>
      simp [CompreFaceClient.sendStep, notTransport, countIncrease]
      omega
  | status code =>
      by_cases hc : code = 200 ∨ code = 201
      · simp [CompreFaceClient.sendStep, hc, notTransport, countIncrease]
        omega
      · simp [CompreFaceClient.sendStep, hc, notTransport, countIncrease]
        omega

/-- The send_to_train fold: totals, outcome sums, list consistency and tick
counts over a whole batch. -/
lemma sendFold_spec :
    ∀ (files : List (FsPath × SendOutcome)) (st : FaceProcessingResult × List ProgressReporter),
      (files.foldl CompreFaceClient.sendStep st).1.total_count = st.1.total_count ∧
        (files.foldl CompreFaceClient.sendStep st).1.success_count +
            (files.foldl CompreFaceClient.sendStep st).1.failure_count +
            (files.foldl CompreFaceClient.sendStep st).1.missed_count =
          st.1.success_count + st.1.failure_count + st.1.missed_count + files.length ∧
        ((files.foldl CompreFaceClient.sendStep st).1.failure_count =
            (files.foldl CompreFaceClient.sendStep st).1.failure_faces.length ↔
          st.1.failure_count = st.1.failure_faces.length) ∧
        ((files.foldl CompreFaceClient.sendStep st).1.missed_count =
            (files.foldl CompreFaceClient.sendStep st).1.missed_faces.length ↔
          st.1.missed_count = st.1.missed_faces.length) ∧
        countIncrease (files.foldl CompreFaceClient.sendStep st).2 =
          countIncrease st.2 + (files.filter notTransport).length := by
  intro files
  induction files with
  | nil => intro st; simp
  | cons fo fs ih =>
      intro st
      rw [List.foldl_cons]
      obtain ⟨s1, s2, s3, s4, s5⟩ := sendStep_spec st fo
      obtain ⟨i1, i2, i3, i4, i5⟩ := ih (CompreFaceClient.sendStep st fo)
      refine ⟨by rw [i1, s1],
        by rw [i2, s2]; simp only [List.length_cons]; omega,
        i3.trans s3, i4.trans s4, ?_⟩
      rw [i5, s5, List.filter_cons]
      by_cases hnt : notTransport fo
      · rw [if_pos hnt, if_pos hnt]
        simp only [List.length_cons]
        omega
      · rw [if_neg hnt, if_neg hnt]
        omega

/-- Destructure a successful send_to_train call. -/
lemma send_to_train_some {name : String} {files : List (FsPath × SendOutcome)}
    {r : FaceProcessingResult} {ev : List ProgressReporter}
    (h : CompreFaceClient.send_to_train name files = some (r, ev)) :
    ∃ f rest par, files = f :: rest ∧ f.1.parent = some par ∧
      (r, ev) = files.foldl CompreFaceClient.sendStep
        ({ with_context (pathToString par) with total_count := files.length }, []) := by
  cases files with
  | nil => cases h
  | cons f rest =>
      cases hpar : f.1.parent with
      | none =>
          simp only [CompreFaceClient.send_to_train, hpar] at h
          cases h
      | some par =>
          simp only [CompreFaceClient.send_to_train, hpar] at h
          exact ⟨f, rest, par, rfl, hpar, (Option.some.inj h).symm⟩

/-- One recognize step: the total and the outcome sum both grow by one, list
lengths track their counters, and exactly one tick is emitted. -/
lemma recognizeStep_spec (name : String)
    (st : FaceProcessingResult × List ProgressReporter) (fo : FsPath × RecognizeOutcome) :
    (CompreFaceClient.recognizeStep name st fo).1.total_count = st.1.total_count + 1 ∧
      (CompreFaceClient.recognizeStep name st fo).1.success_count +
          (CompreFaceClient.recognizeStep name st fo).1.failure_count +
          (CompreFaceClient.recognizeStep name st fo).1.missed_count =
        st.1.success_count + st.1.failure_count + st.1.missed_count + 1 ∧
      ((CompreFaceClient.recognizeStep name st fo).1.failure_count =
          (CompreFaceClient.recognizeStep name st fo).1.failure_faces.length ↔
        st.1.failure_count = st.1.failure_faces.length) ∧
      ((CompreFaceClient.recognizeStep name st fo).1.missed_count =
          (CompreFaceClient.recognizeStep name st fo).1.missed_faces.length ↔
        st.1.missed_count = st.1.missed_faces.length) ∧
      countIncrease (CompreFaceClient.recognizeStep name st fo).2 = countIncrease st.2 + 1 := by
  rcases fo with ⟨p, o⟩
  cases o with
  | transportErr =>
      simp [CompreFaceClient.recognizeStep, countIncrease]
      omega
  | parseErr =>
      simp [CompreFaceClient.recognizeStep, countIncrease]
      omega
  | response items =>
      by_cases hm : items.any fun it => it.subjects.any fun s => s.name = name
      · simp [CompreFaceClient.recognizeStep, hm, countIncrease]
        omega
      · simp [CompreFaceClient.recognizeStep, hm, countIncrease]
        omega

/-- The recognize fold over a whole batch. -/
lemma recognizeFold_spec (name : String) :
    ∀ (files : List (FsPath × RecognizeOutcome))
      (st : FaceProcessingResult × List ProgressReporter),
      (files.foldl (CompreFaceClient.recognizeStep name) st).1.total_count =
          st.1.total_count + files.length ∧
        (files.foldl (CompreFaceClient.recognizeStep name) st).1.success_count +
            (files.foldl (CompreFaceClient.recognizeStep name) st).1.failure_count +
            (files.foldl (CompreFaceClient.recognizeStep name) st).1.missed_count =
          st.1.success_count + st.1.failure_count + st.1.missed_count + files.length ∧
        ((files.foldl (CompreFaceClient.recognizeStep name) st).1.failure_count =
            (files.foldl (CompreFaceClient.recognizeStep name) st).1.failure_faces.length ↔
          st.1.failure_count = st.1.failure_faces.length) ∧
        ((files.foldl (CompreFaceClient.recognizeStep name) st).1.missed_count =
            (files.foldl (CompreFaceClient.recognizeStep name) st).1.missed_faces.length ↔
          st.1.missed_count = st.1.missed_faces.length) ∧
        countIncrease (files.foldl (CompreFaceClient.recognizeStep name) st).2 =
          countIncrease st.2 + files.length := by
  intro files
  induction files with
  | nil => intro st; simp
  | cons fo fs ih =>
      intro st
      rw [List.foldl_cons]
      obtain ⟨s1, s2, s3, s4, s5⟩ := recognizeStep_spec name st fo
      obtain ⟨i1, i2, i3, i4, i5⟩ := ih (CompreFaceClient.recognizeStep name st fo)
      exact ⟨by rw [i1, s1]; simp only [List.length_cons]; omega,
        by rw [i2, s2]; simp only [List.length_cons]; omega,
        i3.trans s3, i4.trans s4,
        by rw [i5, s5]; simp only [List.length_cons]; omega⟩

/-- Destructure a successful recognize call. -/
lemma recognize_some {name : String} {files : List (FsPath × RecognizeOutcome)}
    {r : FaceProcessingResult} {ev : List ProgressReporter}
    (h : CompreFaceClient.recognize name files = some (r, ev)) :
    ∃ f rest par, files = f :: rest ∧ f.1.parent = some par ∧
      (r, ev) = files.foldl (CompreFaceClient.recognizeStep name)
        (with_context (pathToString par), []) := by
  cases files with
  | nil => cases h
  | cons f rest =>
      cases hpar : f.1.parent with
      | none =>
          simp only [CompreFaceClient.recognize, hpar] at h
          cases h
      | some par =>
          simp only [CompreFaceClient.recognize, hpar] at h
          exact ⟨f, rest, par, rfl, hpar, (Option.some.inj h).symm⟩

/-- C4: FaceProcessingResult.add preserves the count invariant
total = success + failure + missed, and every per-batch partial result a
successful send_to_train or recognize call returns satisfies the invariant,
so the invariant holds after every merge of accumulated and partial
results. -/
theorem c4_add_preserves_count_invariant :
    (∀ a b : FaceProcessingResult,
        countsConsistent a → countsConsistent b → countsConsistent (a.add b)) ∧
      (∀ (name : String) (files : List (FsPath × SendOutcome))
          (r : FaceProcessingResult) (ev : List ProgressReporter),
        CompreFaceClient.send_to_train name files = some (r, ev) → countsConsistent r) ∧
      ∀ (name : String) (files : List (FsPath × RecognizeOutcome))
        (r : FaceProcessingResult) (ev : List ProgressReporter),
        CompreFaceClient.recognize name files = some (r, ev) → countsConsistent r := by
  refine ⟨fun a b ha hb => add_countsConsistent ha hb, ?_, ?_⟩
  · intro name files r ev h
    obtain ⟨f, rest, par, hfiles, hpar, heq⟩ := send_to_train_some h
    obtain ⟨h1, h2, -, -, -⟩ := sendFold_spec files
      ({ with_context (pathToString par) with total_count := files.length }, [])
    rw [← heq] at h1 h2
    unfold countsConsistent
    rw [h1, h2]
    simp [with_context]
  · intro name files r ev h
    obtain ⟨f, rest, par, hfiles, hpar, heq⟩ := recognize_some h
    obtain ⟨h1, h2, -, -, -⟩ := recognizeFold_spec name files
      (with_context (pathToString par), [])
    rw [← heq] at h1 h2
    unfold countsConsistent
    rw [h1, h2]
    simp [with_context]

/-- Witness for C4: the merge of two concrete consistent results is
consistent, and the concrete send_to_train and recognize batch results are
consistent. -/
theorem c4_add_preserves_count_invariant_witness :
    countsConsistent ((with_context "x").add sendExResult) ∧
      countsConsistent sendExResult ∧ countsConsistent recogExResult := by
  obtain ⟨hadd, hsend, hrecog⟩ := c4_add_preserves_count_invariant
  have h1 : countsConsistent sendExResult :=
    hsend "n" sendEx sendExResult sendExEvents (by rfl)
  have h2 : countsConsistent recogExResult :=
    hrecog "B" recogEx recogExResult recogExEvents (by rfl)
  exact ⟨hadd (with_context "x") sendExResult (by rfl) h1, h1, h2⟩

/-- C10: every FaceProcessingResult reachable through the public operations
(with_context, a successful send_to_train or recognize call, or add merges of
reachable results) has failure_count equal to the length of failure_faces and
missed_count equal to the length of missed_faces. -/
theorem c10_reachable_faces_consistent (r : FaceProcessingResult) (h : Reachable r) :
    facesConsistent r := by
  induction h with
  | withCtx c => exact ⟨rfl, rfl⟩
  | train name files r ev h =>
      obtain ⟨f, rest, par, hfiles, hpar, heq⟩ := send_to_train_some h
      obtain ⟨-, -, h3, h4, -⟩ := sendFold_spec files
        ({ with_context (pathToString par) with total_count := files.length }, [])
      rw [← heq] at h3 h4
      exact ⟨h3.mpr rfl, h4.mpr rfl⟩
  | recog name files r ev h =>
      obtain ⟨f, rest, par, hfiles, hpar, heq⟩ := recognize_some h
      obtain ⟨-, -, h3, h4, -⟩ := recognizeFold_spec name files
        (with_context (pathToString par), [])
      rw [← heq] at h3 h4
      exact ⟨h3.mpr rfl, h4.mpr rfl⟩
  | merge a b ha hb iha ihb => exact add_facesConsistent iha ihb

/-- Witness for C10 at a concrete reachable result: the merge of a
with_context value with a concrete recognize batch result. -/
theorem c10_reachable_faces_consistent_witness :
    facesConsistent ((with_context "x").add recogExResult) :=
  c10_reachable_faces_consistent _
    (Reachable.merge _ _ (Reachable.withCtx "x")
      (Reachable.recog "B" recogEx recogExResult recogExEvents (by rfl)))

/-- C6 counterexample: a batch of one file that fails at the transport level
is attempted, but send_to_train emits zero Increase ticks for it, not one
per attempted file. -/
theorem c6_transport_tick_counterexample :
    (CompreFaceClient.send_to_train "n" [(pA, SendOutcome.transportErr)]).map
        (fun p => countIncrease p.2) = some 0 ∧
      [(pA, SendOutcome.transportErr)].length = 1 ∧ (0 : Nat) ≠ 1 := by
  exact ⟨by rfl, by rfl, by decide⟩

/-- C6 amended: send_to_train emits exactly one Increase(1) tick per file
whose HTTP send succeeds (acceptance or service rejection), and no tick for a
file that fails at the transport level. -/
theorem c6_ticks_count_non_transport (name : String) (files : List (FsPath × SendOutcome))
    (r : FaceProcessingResult) (ev : List ProgressReporter)
    (h : CompreFaceClient.send_to_train name files = some (r, ev)) :
    countIncrease ev = (files.filter notTransport).length := by
  obtain ⟨f, rest, par, hfiles, hpar, heq⟩ := send_to_train_some h
  obtain ⟨-, -, -, -, h5⟩ := sendFold_spec files
    ({ with_context (pathToString par) with total_count := files.length }, [])
  rw [← heq] at h5
  simpa [countIncrease] using h5

/-- Witness for C6 amended at the concrete batch sendEx: two of the three
files survive the transport, and exactly two ticks are emitted. -/
theorem c6_ticks_count_non_transport_witness :
    countIncrease sendExEvents = (sendEx.filter notTransport).length :=
  c6_ticks_count_non_transport "n" sendEx sendExResult sendExEvents (by rfl)

/-- C5 counterexample: in the group c5Group the single IncreaseLength
addition is 2 (both files, the non-image one included), while only one image
file is processed, so the length additions do not equal the processed image
count. -/
theorem c5_length_counterexample :
    (processGroup 10 "alice" c5Group).map (fun p => sumIncreaseLength p.1) = Except.ok 2 ∧
      (imageFilesOf c5Group).length = 1 ∧ (2 : Nat) ≠ 1 := by
  exact ⟨by rfl, by rfl, by decide⟩

/-- C5 amended: the sum of the IncreaseLength additions of a group equals the
number of its file entries, non-image files included (directories and error
entries do not count); image files alone reach the api calls, so the length
total can exceed the processed image count. -/
theorem c5_length_counts_all_files (maxReq : Nat) (name : String) (g : List DirEntry)
    (ev : List ProgressReporter) (bs : List (List ImgFile))
    (h : processGroup maxReq name g = Except.ok (ev, bs)) :
    sumIncreaseLength ev = filesCount g := by
  obtain ⟨res, hfold, hev, hbs⟩ := processGroup_ok maxReq name g ev bs h
  obtain ⟨-, hsum⟩ := group_foldlM_ok maxReq g _ res hfold
  rw [hev, hsum]
  simp [groupInit, sumIncreaseLength]

/-- Witness for C5 amended at c5Group: the length addition equals the file
entry count 2. -/
theorem c5_length_counts_all_files_witness :
    sumIncreaseLength c5Events = filesCount c5Group :=
  c5_length_counts_all_files 10 "alice" c5Group c5Events c5Batches (by rfl)

/-- The fold inside max_by_key stays within the candidates. -/
lemma foldl_pick_mem {α : Type} (key : α → Nat) :
    ∀ (l : List α) (acc : α),
      l.foldl (fun a b => if key a ≤ key b then b else a) acc ∈ acc :: l := by
  intro l
  induction l with
  | nil => intro acc; exact List.mem_singleton.mpr rfl
  | cons y l ih =>
      intro acc
      rw [List.foldl_cons]
      have h := ih (if key acc ≤ key y then y else acc)
      rcases List.mem_cons.mp h with h1 | h1
      · rw [h1]
        by_cases hk : key acc ≤ key y
        · rw [if_pos hk]
          exact List.mem_cons_of_mem _ (List.mem_cons_self _ _)
        · rw [if_neg hk]
          exact List.mem_cons_self _ _
      · exact List.mem_cons_of_mem _ (List.mem_cons_of_mem _ h1)

/-- The fold inside max_by_key never leaves an accumulator that strictly
dominates everything that follows. -/
lemma foldl_pick_fixed {α : Type} (key : α → Nat) :
    ∀ (l : List α) (a : α), (∀ b ∈ l, key b < key a) →
      l.foldl (fun x y => if key x ≤ key y then y else x) a = a := by
  intro l
  induction l with
  | nil => intro a _; rfl
  | cons y l ih =>
      intro a h
      rw [List.foldl_cons]
      rw [if_neg (not_le.mpr (h y (List.mem_cons_self _ _)))]
      exact ih a fun b hb => h b (List.mem_cons_of_mem _ hb)

/-- Rust max_by_key returns the LAST element attaining the maximal key: for a
decomposition into a prefix of elements with keys at most the key of a and a
suffix of elements with strictly smaller keys, the result is a. -/
lemma max_by_key_last {α : Type} (key : α → Nat) (l₁ : List α) (a : α) (l₂ : List α)
    (h1 : ∀ b ∈ l₁, key b ≤ key a) (h2 : ∀ b ∈ l₂, key b < key a) :
    max_by_key key (l₁ ++ a :: l₂) = some a := by
  cases l₁ with
  | nil =>
      simp only [List.nil_append, max_by_key]
      rw [foldl_pick_fixed key l₂ a h2]
  | cons x l₁ =>
      simp only [List.cons_append, max_by_key]
      rw [List.foldl_append]
      have hm := foldl_pick_mem key l₁ x
      have hma : key (l₁.foldl (fun a b => if key a ≤ key b then b else a) x) ≤ key a := by
        rcases List.mem_cons.mp hm with h | h
        · rw [h]
          exact h1 x (List.mem_cons_self _ _)
        · exact h1 _ (List.mem_cons_of_mem _ h)
      rw [List.foldl_cons, if_pos hma, foldl_pick_fixed key l₂ a h2]

/-- C2 counterexample: for the MaxSimilarity strategy with candidates
A 0.91, B 0.93, C 0.93 the chosen destination is the candidate C, not the
first-encountered maximum B as the claim states. -/
theorem c2_first_max_counterexample :
    recognizeTargets cfgMaxMove personAlice "a.jpg" faceABC =
        Except.ok [personAlice.joinName "C"] ∧
      personAlice.joinName "C" ≠ personAlice.joinName "B" := by
  exact ⟨by rfl, by decide⟩

/-- C2 amended: for the MaxSimilarity strategy with a non-empty candidate
list, the single chosen destination is the LAST-encountered candidate
attaining the maximum of the quantized key floor(similarity * 1000) (the
tie-break of Rust max_by_key is the last maximum, still deterministic, not
randomized); for A 0.91, B 0.93, C 0.93 the choice is C. -/
theorem c2_last_max_chosen (cfg : ErrorConfiguration) (pf : FsPath) (fn : String)
    (path : FsPath) (l₁ l₂ : List Subject) (s : Subject)
    (hstrat : cfg.post_recognize_strategy = PostRecognizeStrategy.MaxSimilarity)
    (h1 : ∀ b ∈ l₁, simKey b.similarity ≤ simKey s.similarity)
    (h2 : ∀ b ∈ l₂, simKey b.similarity < simKey s.similarity) :
    recognizeTargets cfg pf fn (FaceWithMetadata.mk path (l₁ ++ s :: l₂)) =
      Except.ok [pf.joinName s.name] := by
  unfold recognizeTargets
  rw [hstrat]
  rw [max_by_key_last (fun b => simKey b.similarity) l₁ s l₂ h1 h2]

/-- Witness for C2 amended at the spec example: the decomposition prefix
[A, B], chosen C, empty suffix gives destination C. -/
theorem c2_last_max_chosen_witness :
    recognizeTargets cfgMaxMove personAlice "a.jpg" faceABC =
      Except.ok [personAlice.joinName "C"] := by
  have h := c2_last_max_chosen cfgMaxMove personAlice "a.jpg" pA [subjA, subjB] []
    subjC (by rfl) (by decide) (by decide)
  exact h

/-- C3: the claim matches the AboveThreshold documentation of the source (one
destination per candidate strictly above the threshold, possibly none), but
the code collects all matching paths into a SINGLE PathBuf
(vec![iter.collect::<PathBuf>()]): with threshold 0.9 and candidates A 0.91,
B 0.6, C 0.93 the result is one destination, the last matching absolute path
C, not the two destinations A and C; with threshold 0.95 and the candidates
minus C the result is one empty path, not zero destinations. -/
theorem c3_above_threshold_single_pathbuf :
    recognizeTargets cfgATCopy personAlice "a.jpg" faceAT =
        Except.ok [personAlice.joinName "C"] ∧
      recognizeTargets cfgATCopy personAlice "a.jpg" faceAT ≠
        Except.ok [personAlice.joinName "A", personAlice.joinName "C"] ∧
      recognizeTargets cfgAT95 personAlice "a.jpg" faceATnoC =
        Except.ok [FsPath.empty] ∧
      recognizeTargets cfgAT95 personAlice "a.jpg" faceATnoC ≠ Except.ok [] := by
  exact ⟨by rfl, by decide, by rfl, by decide⟩

/-- C7: the sentinel is created at person_folder.join(file_name)
.join(".original_name"), a file NAMED .original_name inside a directory named
after the placed file, not a sibling file named file_name.original_name as
the claim and the source documentation state; shown on the full triage run of
one failed face. -/
theorem c7_sentinel_is_path_component :
    write_all_failure_faces cfgMaxMove [goodFace] =
        Except.ok
          [FsAction.createDirAll (outRoot.joinName "failure_faces"),
            FsAction.createDirAll personAlice,
            FsAction.createFile
              (FsPath.mk true ["out", "failure_faces", "alice", "b.jpg", ".original_name"]),
            FsAction.rename pB (personAlice.joinName "B")] ∧
      sentinelPath personAlice "b.jpg" =
        FsPath.mk true ["out", "failure_faces", "alice", "b.jpg", ".original_name"] ∧
      sentinelPath personAlice "b.jpg" ≠ personAlice.joinName "b.jpg.original_name" := by
  exact ⟨by rfl, by rfl, by decide⟩

/-- C8 counterexample: with a MaxSimilarity violation (empty candidate list)
in the first face, the whole triage step returns the bail error and the
second, unrelated face is not processed, although that face alone would have
been placed. -/
theorem c8_abort_counterexample :
    write_all_failure_faces cfgMaxMove [badFace, goodFace] =
        Except.error (TriageFailure.bail (maxSimilarityBailMsg pA 0)) ∧
      write_all_failure_faces cfgMaxMove [goodFace] =
        Except.ok
          [FsAction.createDirAll (outRoot.joinName "failure_faces"),
            FsAction.createDirAll personAlice,
            FsAction.createFile (sentinelPath personAlice "b.jpg"),
            FsAction.rename pB (personAlice.joinName "B")] := by
  exact ⟨by rfl, by rfl⟩

/-- C8 amended: a configuration/invariant violation in one face (the empty
candidate list under MaxSimilarity) fails that face's triage with an explicit
error AND aborts the whole triage step: whatever faces follow are not
processed. -/
theorem c8_bail_aborts_rest (rest : List FailureFace) :
    write_all_failure_faces cfgMaxMove (badFace :: rest) =
      Except.error (TriageFailure.bail (maxSimilarityBailMsg pA 0)) := by
  rfl

/-- Witness for C8 amended with a concrete non-empty remainder. -/
theorem c8_bail_aborts_rest_witness :
    write_all_failure_faces cfgMaxMove (badFace :: [goodFace]) =
      Except.error (TriageFailure.bail (maxSimilarityBailMsg pA 0)) :=
  c8_bail_aborts_rest [goodFace]

/-- C9: the group-boundary predicate of process_files unwraps every entry,
so an in-band I/O-error element makes the predicate panic (none) and the
whole grouping panics instead of continuing past the error or returning an
orderly error; an error-free stream is grouped normally. -/
theorem c9_error_entry_panics :
    boundary_predicate (DirEntry.err "permission denied") = none ∧
      bufferUntilCondition boundary_predicate
          [DirEntry.dir pAlice, DirEntry.err "permission denied", DirEntry.file pA 3] = none ∧
      bufferUntilCondition boundary_predicate [DirEntry.dir pAlice, DirEntry.file pA 3] =
        some [[DirEntry.dir pAlice, DirEntry.file pA 3]] := by
  exact ⟨by rfl, by rfl, by rfl⟩

end FaceTrainer
